import Mathlib

/-!
Verification of the geofence attendance engine (`lib/geofence.ts`) against its
specification.  The TypeScript source is shallowly embedded: persistent storage
(AsyncStorage under the three fixed keys) becomes a typed record `GeoState`,
timestamps are integer milliseconds, JS string operations are re-implemented on
`List Char` so that every definition evaluates by kernel reduction, and the
background task handler becomes a pure function from (inputs, state) to
(state, outputs).  The sync queue (`lib/syncQueue.ts`) is not part of the
provided sources, so its two operations are modelled from the specification
text and marked as such.
-/

namespace GeoAttend

/-- Direction of a geofence transition, the `"ENTER" | "EXIT"` union type. -/
inductive Dir
  | ENTER
  | EXIT
deriving DecidableEq, Repr

/-- String form of a direction, as interpolated into payloads and idem keys. -/
def dirStr : Dir → String
  | .ENTER => "ENTER"
  | .EXIT => "EXIT"

/-- JS whitespace test for the characters relevant to `String.prototype.trim`. -/
def isJsSpace (c : Char) : Bool :=
  c == ' ' || c == '\t' || c == '\n' || c == '\r' || c == '\x0b' || c == '\x0c'

/-- Embedding of `String.prototype.trim`: strip whitespace from both ends.
Implemented on the character list so it evaluates by kernel reduction. -/
def jsTrim (s : String) : String :=
  ⟨((s.data.dropWhile isJsSpace).reverse.dropWhile isJsSpace).reverse⟩

/-- Embedding of `String.prototype.startsWith`. -/
def jsStartsWith (s pre : String) : Bool :=
  pre.data.isPrefixOf s.data

/-- Embedding of `String.prototype.slice(n)` for a nonnegative index. -/
def jsSlice (s : String) (n : Nat) : String :=
  ⟨s.data.drop n⟩

/-- The debounce window in seconds (`DEBOUNCE_SEC = 30` in `geofence.ts`). -/
def DEBOUNCE_SEC : Int := 30

/-- The persisted last-transition marker stored under `LAST_EVENT_KEY`
(`{ dir, at }`; the `at` field is named `atMs` here since `at` is reserved in Lean). -/
structure Marker where
  dir : Dir
  atMs : Int
deriving DecidableEq, Repr

/-- The persisted active-event meta record stored under `ACTIVE_EVENT_META_KEY`.
`active_event_end_utc` is `none` for a stored `null` (or empty string, which
behaves identically everywhere), and `some p` for a stored non-empty string
whose `Date.parse` result is `p` (`none` inside when unparseable). -/
structure ActiveEventMeta where
  event_id : String
  active_event_end_utc : Option (Option Int)
  saved_at : Int
deriving DecidableEq, Repr

/-- A transition record (`GeoEventPayload` in `syncQueue.ts`), the unit that
moves through the offline queue.  `at` is the ISO timestamp as milliseconds. -/
structure GeoEventPayload where
  event_id : String
  dir : Dir
  atMs : Int
  region_id : Option String
  acc_m : Option Int
  device : String
  idem : String
deriving DecidableEq, Repr

/-- The durable state visible to the geofence module: the three AsyncStorage
slots (meta key, legacy key, last-transition marker), the offline queue, and
whether geofencing is registered with the platform. -/
structure GeoState where
  meta : Option ActiveEventMeta
  legacy : Option String
  lastMarker : Option Marker
  queue : List GeoEventPayload
  geofencingStarted : Bool
deriving DecidableEq, Repr

/-- Embedding of `setActiveEventMeta(null)`: remove both the meta key and the
legacy key (lines 70-78 of `geofence.ts`). -/
def clearActiveContext (st : GeoState) : GeoState :=
  { st with meta := none, legacy := none }

/-- Input to `setActiveEventMeta`: `{ eventId, endUtc }`. -/
structure MetaInput where
  eventId : String
  endUtc : Option (Option Int)
deriving DecidableEq, Repr

/-- Embedding of `setActiveEventMeta` (lines 67-100): `null` clears both keys;
a blank-after-trim id also clears; otherwise both keys are overwritten. -/
def setActiveEventMeta (now : Int) (meta : Option MetaInput) (st : GeoState) : GeoState :=
  match meta with
  | none => clearActiveContext st
  | some m =>
    let eventId := jsTrim m.eventId
    if eventId = "" then clearActiveContext st
    else
      { st with
        meta := some { event_id := eventId, active_event_end_utc := m.endUtc, saved_at := now }
        legacy := some eventId }

/-- Embedding of `getActiveEventMetaUnsafe` (lines 123-142): read the meta key,
trim the id, and treat a blank id as absence. -/
def getActiveEventMetaUnsafe (st : GeoState) : Option ActiveEventMeta :=
  match st.meta with
  | none => none
  | some m =>
    let id := jsTrim m.event_id
    if id = "" then none
    else some { event_id := id
                active_event_end_utc := m.active_event_end_utc
                saved_at := m.saved_at }

/-- Embedding of `setActiveEventId` (lines 103-121): blank ids clear the
context; a redundant call for the already-stored id with a known end keeps the
meta record and rewrites only the legacy key; otherwise the meta is overwritten
with a `null` end. -/
def setActiveEventId (now : Int) (eventId : Option String) (st : GeoState) : GeoState :=
  let normalized := jsTrim (eventId.getD "")
  if normalized = "" then setActiveEventMeta now none st
  else
    match getActiveEventMetaUnsafe st with
    | some existing =>
      if existing.event_id = normalized ∧ existing.active_event_end_utc.isSome then
        { st with legacy := some normalized }
      else
        setActiveEventMeta now (some ⟨normalized, none⟩) st
    | none =>
      setActiveEventMeta now (some ⟨normalized, none⟩) st

/-- Embedding of `getActiveEventId` (lines 144-166).  Returns the resolved id
and the possibly mutated state.  `parseUtcMs` on the stored end string is
`active_event_end_utc.bind id`; the expiry branch clears both keys and
best-effort stops geofencing; the legacy fallback trims and drops blanks. -/
def getActiveEventId (now : Int) (st : GeoState) : Option String × GeoState :=
  match getActiveEventMetaUnsafe st with
  | some m =>
    match m.active_event_end_utc.bind id with
    | some endMs =>
      if endMs < now then
        (none, { clearActiveContext st with geofencingStarted := false })
      else (some m.event_id, st)
    | none => (some m.event_id, st)
  | none =>
    match st.legacy with
    | none => (none, st)
    | some s =>
      let t := jsTrim s
      (if t = "" then none else some t, st)

/-- Storage fault model for `shouldDebounce`: the body is wrapped in a single
try/catch, so either the read (`getItem`/`JSON.parse`) throws, or the write
(`setItem`) would throw if attempted, or storage is healthy. -/
inductive StFail
  | healthy
  | onRead
  | onWrite
deriving DecidableEq, Repr

/-- The suppression test of `shouldDebounce` (lines 222-224): same direction
and `dt = (now - last.at) / 1000 < DEBOUNCE_SEC`.  The float comparison is
exact, so it is embedded as `now - last.atMs < DEBOUNCE_SEC * 1000`. -/
def debounceHit (last : Option Marker) (dir : Dir) (now : Int) : Bool :=
  match last with
  | some m => m.dir = dir ∧ now - m.atMs < DEBOUNCE_SEC * 1000
  | none => false

/-- Embedding of `shouldDebounce` (lines 215-234): on a hit return `true`
without mutating state; otherwise write a fresh marker and return `false`.
A read failure short-circuits to `false` via the catch; a write failure is
only reachable on the non-hit path and also yields `false` via the catch. -/
def shouldDebounce (f : StFail) (last : Option Marker) (dir : Dir) (now : Int) :
    Bool × Option Marker :=
  match f with
  | .onRead => (false, last)
  | .healthy =>
    if debounceHit last dir now then (true, last)
    else (false, some ⟨dir, now⟩)
  | .onWrite =>
    if debounceHit last dir now then (true, last)
    else (false, last)

/-- The pre-digest string of `makeIdem` (line 244-245 of `geofence.ts`):
the slot is `Math.floor(ms / 1000 / DEBOUNCE_SEC)`, i.e. the floor division of
the millisecond timestamp by 30000, and the base is the template
`eventId|regionId-or-null|dir|slot`. -/
def idemBase (eventId : String) (regionId : Option String) (dir : Dir) (atMs : Int) : String :=
  let slot : Int := Int.fdiv atMs (1000 * DEBOUNCE_SEC)
  eventId ++ "|" ++ regionId.getD "null" ++ "|" ++ dirStr dir ++ "|" ++ slot.repr

/-- Embedding of `makeIdem` (lines 237-247): the digest (`expo-crypto`
SHA-256) is an external function passed as a parameter and applied to the
base string. -/
def makeIdem (digest : String → String) (eventId : String) (regionId : Option String)
    (dir : Dir) (atMs : Int) : String :=
  digest (idemBase eventId regionId dir atMs)

/-- Classification of a failing remote call, used only to state the spec claim;
the code itself never inspects the failure reason. -/
inductive ErrKind
  | procUnavailable
  | network
  | auth
  | malformed
  | timedOut
  | other
deriving DecidableEq, Repr

/-- Outcome of one remote call: a success result, an error result object, or a
thrown exception. -/
inductive CallOutcome
  | ok
  | errorResult (k : ErrKind)
  | thrown (k : ErrKind)
deriving DecidableEq, Repr

/-- The network environment for one `postToServer` invocation: the outcome the
`geofence_log` RPC would produce, and the outcome the raw `geofence_events`
insert would produce. -/
structure ServerEnv where
  rpc : CallOutcome
  insertRaw : CallOutcome
deriving DecidableEq, Repr

/-- Remote calls `postToServer` can issue, in order. -/
inductive SrvCall
  | rpc
  | insertRaw
deriving DecidableEq, Repr

/-- Embedding of `postToServer` (lines 249-278): try the RPC; on an error
result, attempt the raw table insert and throw its error (caught by the outer
catch, yielding `false`); any throw anywhere is caught and yields `false`.
Returns the boolean result and the list of remote calls issued. -/
def postToServer (env : ServerEnv) : Bool × List SrvCall :=
  match env.rpc with
  | .ok => (true, [.rpc])
  | .thrown _ => (false, [.rpc])
  | .errorResult _ =>
    match env.insertRaw with
    | .ok => (true, [.rpc, .insertRaw])
    | .errorResult _ => (false, [.rpc, .insertRaw])
    | .thrown _ => (false, [.rpc, .insertRaw])

/-- Modelled from the spec: `lib/syncQueue.ts` is not among the provided
sources.  Spec 4.5: `enqueue(record)` "appends to a persisted ordered list". -/
def enqueue (q : List GeoEventPayload) (r : GeoEventPayload) : List GeoEventPayload :=
  q ++ [r]

/-- Modelled from the spec: `lib/syncQueue.ts` is not among the provided
sources.  Spec 4.5: `flushOnce(deliver)` "attempts delivery for each queued
record in insertion order; a record is removed from the queue only on
successful delivery; on failure the record remains and flush stops attempting
later records in that pass ... but does not crash or throw".  Returns the
remaining queue and the list of records for which delivery was attempted. -/
def flushOnce (deliver : GeoEventPayload → Bool) :
    List GeoEventPayload → List GeoEventPayload × List GeoEventPayload
  | [] => ([], [])
  | r :: rest =>
    if deliver r then
      let out := flushOnce deliver rest
      (out.1, r :: out.2)
    else (r :: rest, [r])

/-- The platform event type carried by a geofencing signal. -/
inductive GeofencingEventType
  | enter
  | leave
deriving DecidableEq, Repr

/-- The `region` object of a signal; only its `identifier` is consulted. -/
structure Region where
  identifier : Option String
deriving DecidableEq, Repr

/-- The raw background signal `{ data, error }` delivered by the task manager:
an optional error message, the optional event type, the optional region. -/
structure Signal where
  error : Option String
  eventType : Option GeofencingEventType
  region : Option Region
deriving DecidableEq, Repr

/-- Direction resolution in the handler (lines 294-299): `Enter` maps to
ENTER, `Exit` to EXIT, anything else (including absent) defaults to ENTER. -/
def dirOfSignal (sig : Signal) : Dir :=
  match sig.eventType with
  | some .enter => .ENTER
  | some .leave => .EXIT
  | none => .ENTER

/-- The region-identifier fallback of the handler (lines 308-311): if the
identifier starts with `"event:"`, the rest is trimmed and used when
non-blank. -/
def parseRegionEvent (regionId : Option String) : Option String :=
  match regionId with
  | none => none
  | some r =>
    if jsStartsWith r "event:" then
      let parsed := jsTrim (jsSlice r ("event:".length))
      if parsed = "" then none else some parsed
    else none

/-- Result of one handler invocation: the new durable state, the
`TransitionRecord` constructed during the invocation (if any), and the records
successfully delivered to the server (directly or through the flush). -/
structure HandlerOut where
  state : GeoState
  record : Option GeoEventPayload
  posted : List GeoEventPayload
deriving DecidableEq, Repr

/-- Embedding of the background task handler registered by `defineTaskOnce`
(lines 285-343).  `deliver` abstracts `postToServer` for this invocation,
`digest` the SHA-256 primitive, `f` the debounce-marker storage health, and
`now` the invocation time in milliseconds (both `nowIso()` and the `Date.now()`
inside `shouldDebounce` sample the same instant). -/
def handler (deliver : GeoEventPayload → Bool) (digest : String → String) (f : StFail)
    (now : Int) (sig : Signal) (st : GeoState) : HandlerOut :=
  if sig.error.isSome then ⟨st, none, []⟩
  else
    let dir := dirOfSignal sig
    let deb := shouldDebounce f st.lastMarker dir now
    let st1 := { st with lastMarker := deb.2 }
    if deb.1 then ⟨st1, none, []⟩
    else
      let regionId := sig.region.bind Region.identifier
      let resolved := getActiveEventId now st1
      let st2 := resolved.2
      let eventId :=
        match resolved.1 with
        | some e => some e
        | none => parseRegionEvent regionId
      match eventId with
      | none => ⟨st2, none, []⟩
      | some e =>
        let payload : GeoEventPayload :=
          { event_id := e, dir := dir, atMs := now, region_id := regionId
            acc_m := none, device := "mobile"
            idem := makeIdem digest e regionId dir now }
        if deliver payload then ⟨st2, some payload, [payload]⟩
        else
          let q1 := enqueue st2.queue payload
          let flushed := flushOnce deliver q1
          ⟨{ st2 with queue := flushed.1 }, some payload, flushed.2⟩


/-- Decimal digit list of a natural number, the structural counterpart of
`Nat.toDigitsCore`; used to reason about the slot component of the idem key. -/
def natChars (n : Nat) : List Char :=
  if n < 10 then [Nat.digitChar n]
  else natChars (n / 10) ++ [Nat.digitChar (n % 10)]
termination_by n
decreasing_by exact Nat.div_lt_self (by omega) (by omega)

/-- Decimal decoding of a digit list with accumulator, a left inverse used to
prove that decimal printing is injective. -/
def decodeDigits (a : Nat) (l : List Char) : Nat :=
  l.foldl (fun acc c => acc * 10 + (c.toNat - 48)) a

/-- An armed demo state: event `E1` with a known end time of 100 ms. -/
def demoState : GeoState :=
  ⟨some ⟨"E1", some (some 100), 0⟩, some "E1", none, [], true⟩

/-- An armed demo state whose end time is unknown (`null`): never expires. -/
def armedState : GeoState :=
  ⟨some ⟨"E1", none, 0⟩, some "E1", none, [], true⟩

/-- A fully empty demo state: no context, no marker, empty queue. -/
def emptyState : GeoState :=
  ⟨none, none, none, [], false⟩

/-- A demo transition record with a given timestamp, for queue examples. -/
def demoPayload (i : Int) : GeoEventPayload :=
  ⟨"E1", .ENTER, i, none, none, "mobile", "k"⟩


/-! Helper lemmas shared by the claim theorems. -/

theorem getActiveEventMetaUnsafe_eq (st : GeoState) (m : ActiveEventMeta)
    (hm : st.meta = some m) (hne : jsTrim m.event_id ≠ "") :
    getActiveEventMetaUnsafe st
      = some ⟨jsTrim m.event_id, m.active_event_end_utc, m.saved_at⟩ := by
  rw [getActiveEventMetaUnsafe, hm]
  simp [hne]

theorem getActiveEventId_marker_irrel (now : Int) (st : GeoState) (x : Option Marker) :
    getActiveEventId now { st with lastMarker := x }
      = ((getActiveEventId now st).1, { (getActiveEventId now st).2 with lastMarker := x }) := by
  have hmeta : getActiveEventMetaUnsafe { st with lastMarker := x }
      = getActiveEventMetaUnsafe st := by
    simp [getActiveEventMetaUnsafe]
  rw [getActiveEventId, getActiveEventId, hmeta]
  rcases hm : getActiveEventMetaUnsafe st with _ | m <;> simp only [hm]
  · have hl : ({ st with lastMarker := x } : GeoState).legacy = st.legacy := rfl
    rw [hl]
    rcases hl2 : st.legacy with _ | s <;> simp only [hl2]
  · rcases hb : m.active_event_end_utc.bind id with _ | endMs <;> simp only [hb]
    all_goals first
      | simp
      | (by_cases hlt : endMs < now <;> simp [hlt, clearActiveContext])

theorem getActiveEventId_snd_frame (now : Int) (st : GeoState) :
    ((getActiveEventId now st).2).queue = st.queue
    ∧ ((getActiveEventId now st).2).lastMarker = st.lastMarker := by
  rw [getActiveEventId]
  rcases hm : getActiveEventMetaUnsafe st with _ | m <;> simp only [hm]
  · rcases hl2 : st.legacy with _ | s <;> simp only [hl2]
    all_goals simp
  · rcases hb : m.active_event_end_utc.bind id with _ | endMs <;> simp only [hb]
    all_goals first
      | simp
      | (by_cases hlt : endMs < now <;> simp [hlt, clearActiveContext])

theorem flushOnce_characterization (deliver : GeoEventPayload → Bool) :
    ∀ q : List GeoEventPayload,
      flushOnce deliver q =
        (q.dropWhile deliver, q.takeWhile deliver ++ (q.dropWhile deliver).take 1) := by
  intro q
  induction q with
  | nil => rfl
  | cons r rest ih =>
    by_cases h : deliver r
    · simp [flushOnce, h, List.takeWhile_cons_of_pos, List.dropWhile_cons_of_pos, ih]
    · simp [flushOnce, h, List.takeWhile_cons_of_neg, List.dropWhile_cons_of_neg]

theorem mem_takeWhile_deliver {deliver : GeoEventPayload → Bool}
    {q : List GeoEventPayload} {x : GeoEventPayload}
    (hx : x ∈ q.takeWhile deliver) : deliver x = true := by
  induction q with
  | nil => simp [List.takeWhile] at hx
  | cons r rest ih =>
    by_cases h : deliver r
    · rw [List.takeWhile_cons_of_pos h] at hx
      rcases List.mem_cons.mp hx with rfl | hx
      · exact h
      · exact ih hx
    · rw [List.takeWhile_cons_of_neg h] at hx
      simp at hx

theorem head_dropWhile_deliver {deliver : GeoEventPayload → Bool}
    {q : List GeoEventPayload} {x : GeoEventPayload}
    (hx : x ∈ (q.dropWhile deliver).take 1) : deliver x = false := by
  induction q with
  | nil => simp [List.dropWhile] at hx
  | cons r rest ih =>
    by_cases h : deliver r
    · rw [List.dropWhile_cons_of_pos h] at hx
      exact ih hx
    · rw [List.dropWhile_cons_of_neg h] at hx
      simp at hx
      rcases hx with rfl
      simpa using h

/-- C5: for every queue state and every delivery function, `flushOnce`
attempts delivery in FIFO (insertion) order; the removed records are exactly a
prefix of successfully delivered records; on the first failed delivery that
record and all later ones remain in the queue, in order, and no record after
the failed one is attempted in that pass.  (The definition is total, so the
pass cannot throw.) -/
theorem C5_flushOnce_fifo (deliver : GeoEventPayload → Bool) (q : List GeoEventPayload) :
    (flushOnce deliver q).1 = q.dropWhile deliver
    ∧ (flushOnce deliver q).2 = q.takeWhile deliver ++ (q.dropWhile deliver).take 1
    ∧ q.takeWhile deliver ++ q.dropWhile deliver = q
    ∧ (∀ x ∈ q.takeWhile deliver, deliver x = true)
    ∧ (∀ x ∈ (q.dropWhile deliver).take 1, deliver x = false) := by
  refine ⟨?_, ?_, ?_, ?_, ?_⟩
  · rw [flushOnce_characterization]
  · rw [flushOnce_characterization]
  · exact List.takeWhile_append_dropWhile deliver q
  · intro x hx; exact mem_takeWhile_deliver hx
  · intro x hx; exact head_dropWhile_deliver hx

/-- C5 witness: the characterization evaluated on a concrete queue where the
second record fails: the first record is removed, the second and third stay. -/
theorem C5_flushOnce_fifo_witness :
    (flushOnce (fun p => decide (p.atMs < 1)) [demoPayload 0, demoPayload 5, demoPayload 0]).1
        = [demoPayload 0, demoPayload 5, demoPayload 0].dropWhile (fun p => decide (p.atMs < 1))
    ∧ (flushOnce (fun p => decide (p.atMs < 1)) [demoPayload 0, demoPayload 5, demoPayload 0]).2
        = [demoPayload 0, demoPayload 5, demoPayload 0].takeWhile (fun p => decide (p.atMs < 1))
          ++ ([demoPayload 0, demoPayload 5, demoPayload 0].dropWhile
                (fun p => decide (p.atMs < 1))).take 1
    ∧ [demoPayload 0, demoPayload 5, demoPayload 0].takeWhile (fun p => decide (p.atMs < 1))
          ++ [demoPayload 0, demoPayload 5, demoPayload 0].dropWhile (fun p => decide (p.atMs < 1))
        = [demoPayload 0, demoPayload 5, demoPayload 0]
    ∧ (∀ x ∈ [demoPayload 0, demoPayload 5, demoPayload 0].takeWhile
          (fun p => decide (p.atMs < 1)), (fun p => decide (p.atMs < 1)) x = true)
    ∧ (∀ x ∈ ([demoPayload 0, demoPayload 5, demoPayload 0].dropWhile
          (fun p => decide (p.atMs < 1))).take 1, (fun p => decide (p.atMs < 1)) x = false) :=
  C5_flushOnce_fifo (fun p => decide (p.atMs < 1)) [demoPayload 0, demoPayload 5, demoPayload 0]

/-- C6 counterexample: on an RPC failure that is a transient network error
(not a procedure-unavailable error), the code does attempt the fallback raw
insert, and when that insert succeeds `postToServer` returns `true` — the
claim says the fallback happens only for procedure-unavailable errors and that
other failure modes return `false`. -/
theorem C6_counterexample :
    postToServer ⟨.errorResult .network, .ok⟩ = (true, [.rpc, .insertRaw])
    ∧ ErrKind.network ≠ ErrKind.procUnavailable := by
  exact ⟨rfl, by decide⟩

/-- C6 (amended): `postToServer` first attempts the RPC; on any RPC error
result, regardless of its kind, it attempts the fallback raw insert; it
returns `true` exactly when the RPC succeeds or the fallback insert succeeds,
and every failure mode returns `false` without throwing. -/
theorem C6_postToServer_fallback (env : ServerEnv) :
    (∀ k, env.rpc = .errorResult k → (postToServer env).2 = [.rpc, .insertRaw])
    ∧ (env.rpc = .ok → postToServer env = (true, [.rpc]))
    ∧ ((postToServer env).1 = true ↔
        (env.rpc = .ok ∨ ((∃ k, env.rpc = .errorResult k) ∧ env.insertRaw = .ok))) := by
  refine ⟨?_, ?_, ?_⟩
  · intro k hk
    cases env with
    | mk rpc ins =>
      cases ins <;> simp_all [postToServer]
  · intro hk
    cases env with
    | mk rpc ins => simp_all [postToServer]
  · cases env with
    | mk rpc ins =>
      cases rpc <;> cases ins <;> simp [postToServer]

/-- C6 witness: the amended behavior applied to a concrete environment where
the RPC fails with an auth error and the fallback insert also fails. -/
theorem C6_postToServer_fallback_witness :
    (postToServer ⟨.errorResult .auth, .errorResult .other⟩).2 = [.rpc, .insertRaw] :=
  (C6_postToServer_fallback ⟨.errorResult .auth, .errorResult .other⟩).1 .auth rfl

/-- C7 counterexample: with an armed context, calling `setActiveEventId` with
a blank (whitespace-only) event id does not leave the context unchanged — it
clears the meta record, so the call is not a no-op. -/
theorem C7_counterexample :
    jsTrim " " = ""
    ∧ (setActiveEventId 0 (some " ") demoState).meta = none
    ∧ demoState.meta ≠ none := by
  exact ⟨rfl, by decide, by decide⟩

/-- C7 (amended): `setActiveEventId` with an event id that is blank after
trimming clears the persisted active-event context — it removes both the meta
record and the legacy key — rather than leaving the previous context in place;
in particular a blank id is never persisted. -/
theorem C7_blank_clears (now : Int) (eventId : Option String) (st : GeoState)
    (h : jsTrim (eventId.getD "") = "") :
    setActiveEventId now eventId st = { st with meta := none, legacy := none } := by
  simp [setActiveEventId, h, setActiveEventMeta, clearActiveContext]

/-- C7 witness: the amended claim applied to the armed demo state and the
whitespace-only id. -/
theorem C7_blank_clears_witness :
    setActiveEventId 0 (some " ") demoState = { demoState with meta := none, legacy := none } :=
  C7_blank_clears 0 (some " ") demoState (by decide)

/-- C8: if the persisted context already holds the same (trimmed) event id
with a known (non-null) end, a redundant `setActiveEventId` call keeps the
stored meta record — including its end time — unchanged, rewriting only the
legacy key. -/
theorem C8_redundant_preserves_end (now : Int) (e : String) (st : GeoState)
    (m : ActiveEventMeta) (hm : st.meta = some m)
    (hid : jsTrim m.event_id = jsTrim e) (hne : jsTrim e ≠ "")
    (hend : m.active_event_end_utc.isSome) :
    (setActiveEventId now (some e) st).meta = st.meta
    ∧ (setActiveEventId now (some e) st).legacy = some (jsTrim e) := by
  have h1 : getActiveEventMetaUnsafe st =
      some ⟨jsTrim e, m.active_event_end_utc, m.saved_at⟩ := by
    rw [getActiveEventMetaUnsafe, hm]
    simp only [hid]
    simp [hne]
  simp [setActiveEventId, h1, hne, hend]

/-- C8 witness: the redundant call on the armed demo state (stored end 100)
leaves the meta record untouched. -/
theorem C8_redundant_preserves_end_witness :
    (setActiveEventId 7 (some " E1 ") demoState).meta = demoState.meta
    ∧ (setActiveEventId 7 (some " E1 ") demoState).legacy = some (jsTrim " E1 ") :=
  C8_redundant_preserves_end 7 " E1 " demoState ⟨"E1", some (some 100), 0⟩
    (by decide) (by decide) (by decide) (by decide)

/-- C9: storage failure in the debounce check degrades to processing the
signal rather than dropping it: a read failure makes `shouldDebounce` return
`false` with the marker untouched; when a healthy run would return `false`
(i.e. whenever the write is actually attempted), a write failure also returns
`false` with the marker untouched; and a write failure never suppresses a
signal a healthy run would have processed. -/
theorem C9_storage_failure_processes (last : Option Marker) (d : Dir) (now : Int) :
    shouldDebounce .onRead last d now = (false, last)
    ∧ ((shouldDebounce .healthy last d now).1 = false →
        shouldDebounce .onWrite last d now = (false, last))
    ∧ ((shouldDebounce .onWrite last d now).1 = true →
        (shouldDebounce .healthy last d now).1 = true) := by
  refine ⟨rfl, ?_, ?_⟩ <;>
    by_cases h : debounceHit last d now <;> simp [shouldDebounce, h]

/-- C9 witness: storage failures on a state whose marker would otherwise be
overwritten: both failure modes yield `false` and leave the marker in place. -/
theorem C9_storage_failure_processes_witness :
    shouldDebounce .onRead (some ⟨.ENTER, 0⟩) .EXIT 5 = (false, some ⟨.ENTER, 0⟩)
    ∧ shouldDebounce .onWrite (some ⟨.ENTER, 0⟩) .EXIT 5 = (false, some ⟨.ENTER, 0⟩) := by
  have h := C9_storage_failure_processes (some ⟨.ENTER, 0⟩) .EXIT 5
  exact ⟨h.1, h.2.1 (by decide)⟩


/-- C3: auto-expiry of the persisted active-event context.  If the stored end
time parses and is strictly earlier than now, `getActiveEventId` returns
absent, deletes both the meta record and the legacy key (so a subsequent read
observes the context cleared), and best-effort stops geofence monitoring.
When the meta is absent the legacy key (trimmed, non-blank) is returned, and
when the end is unknown or not yet passed the stored (trimmed) id is
returned. -/
theorem C3_auto_expiry (now now2 : Int) (st : GeoState) (m : ActiveEventMeta)
    (endMs : Int) (s : String) :
    (st.meta = some m → jsTrim m.event_id ≠ "" →
      m.active_event_end_utc.bind id = some endMs → endMs < now →
      getActiveEventId now st
          = (none, { st with meta := none, legacy := none, geofencingStarted := false })
        ∧ (getActiveEventId now2
            { st with meta := none, legacy := none, geofencingStarted := false }).1 = none)
    ∧ (st.meta = some m → jsTrim m.event_id ≠ "" →
        m.active_event_end_utc.bind id = none →
        getActiveEventId now st = (some (jsTrim m.event_id), st))
    ∧ (st.meta = some m → jsTrim m.event_id ≠ "" →
        m.active_event_end_utc.bind id = some endMs → now ≤ endMs →
        getActiveEventId now st = (some (jsTrim m.event_id), st))
    ∧ (st.meta = none → st.legacy = some s → jsTrim s ≠ "" →
        getActiveEventId now st = (some (jsTrim s), st)) := by
  refine ⟨?_, ?_, ?_, ?_⟩
  · intro hm hne hb hlt
    have h1 := getActiveEventMetaUnsafe_eq st m hm hne
    have hb2 : (Option.bind m.active_event_end_utc fun a => a) = some endMs := hb
    constructor
    · rw [getActiveEventId, h1]
      simp [hb2, hlt, clearActiveContext]
    · rw [getActiveEventId]
      simp [getActiveEventMetaUnsafe]
  · intro hm hne hb
    have h1 := getActiveEventMetaUnsafe_eq st m hm hne
    have hb2 : (Option.bind m.active_event_end_utc fun a => a) = none := hb
    rw [getActiveEventId, h1]
    simp [hb2]
  · intro hm hne hb hle
    have h1 := getActiveEventMetaUnsafe_eq st m hm hne
    have hb2 : (Option.bind m.active_event_end_utc fun a => a) = some endMs := hb
    rw [getActiveEventId, h1]
    simp [hb2, Int.not_lt.mpr hle]
  · intro hm hl hne
    rw [getActiveEventId]
    simp [getActiveEventMetaUnsafe, hm, hl, hne]

/-- C3 witness: the armed demo state with end 100 read at time 200 expires,
clears the context, stops monitoring, and a second read at 300 finds nothing;
the same state read at time 50 still returns the id. -/
theorem C3_auto_expiry_witness :
    (getActiveEventId 200 demoState
        = (none, { demoState with meta := none, legacy := none, geofencingStarted := false })
      ∧ (getActiveEventId 300
          { demoState with meta := none, legacy := none, geofencingStarted := false }).1 = none)
    ∧ getActiveEventId 50 demoState = (some (jsTrim "E1"), demoState) :=
  ⟨(C3_auto_expiry 200 300 demoState ⟨"E1", some (some 100), 0⟩ 100 "x").1
      rfl (by decide) rfl (by decide),
    (C3_auto_expiry 50 300 demoState ⟨"E1", some (some 100), 0⟩ 100 "x").2.2.1
      rfl (by decide) rfl (by decide)⟩

/-- C1: if the persisted active-event context resolves to no event id and no
identifier is parseable from the region identifier, the handler returns
without constructing a `TransitionRecord`: nothing is posted, nothing is
enqueued, and the queue is unchanged — for every storage-health mode and
every delivery function. -/
theorem C1_no_null_event (deliver : GeoEventPayload → Bool) (digest : String → String)
    (f : StFail) (now : Int) (sig : Signal) (st : GeoState)
    (hev : (getActiveEventId now st).1 = none)
    (hreg : parseRegionEvent (sig.region.bind Region.identifier) = none) :
    (handler deliver digest f now sig st).record = none
    ∧ (handler deliver digest f now sig st).state.queue = st.queue
    ∧ (handler deliver digest f now sig st).posted = [] := by
  rw [handler]
  by_cases herr : sig.error.isSome
  · simp [herr]
  · simp only [herr, if_false, Bool.false_eq_true]
    by_cases hd : (shouldDebounce f st.lastMarker (dirOfSignal sig) now).1
    · simp [hd]
    · simp only [hd, if_false, Bool.false_eq_true]
      have hfst : (getActiveEventId now
          { st with lastMarker := (shouldDebounce f st.lastMarker (dirOfSignal sig) now).2 }).1
          = none := by
        rw [getActiveEventId_marker_irrel]
        exact hev
      have hsnd := getActiveEventId_marker_irrel now st
        (shouldDebounce f st.lastMarker (dirOfSignal sig) now).2
      simp only [hsnd, hev, hreg]
      simp [(getActiveEventId_snd_frame now st).1]

/-- C1 witness: on the empty state (no context at all) and a region-less
ENTER signal, the handler constructs nothing and the queue stays empty. -/
theorem C1_no_null_event_witness :
    (handler (fun _ => false) (fun s => s) .healthy 0 ⟨none, some .enter, none⟩ emptyState).record
        = none
    ∧ (handler (fun _ => false) (fun s => s) .healthy 0
        ⟨none, some .enter, none⟩ emptyState).state.queue = emptyState.queue
    ∧ (handler (fun _ => false) (fun s => s) .healthy 0
        ⟨none, some .enter, none⟩ emptyState).posted = [] :=
  C1_no_null_event (fun _ => false) (fun s => s) .healthy 0
    ⟨none, some .enter, none⟩ emptyState (by decide) rfl


theorem getActiveEventId_armed (now : Int) (st : GeoState) (am : ActiveEventMeta)
    (hm : st.meta = some am) (hne : jsTrim am.event_id ≠ "")
    (hend : am.active_event_end_utc.bind id = none) :
    getActiveEventId now st = (some (jsTrim am.event_id), st) := by
  have h1 := getActiveEventMetaUnsafe_eq st am hm hne
  have hb2 : (Option.bind am.active_event_end_utc fun a => a) = none := hend
  rw [getActiveEventId, h1]
  simp [hb2]

theorem handler_debounced (deliver : GeoEventPayload → Bool) (digest : String → String)
    (f : StFail) (now : Int) (sig : Signal) (st : GeoState)
    (herr : sig.error = none)
    (hdeb : (shouldDebounce f st.lastMarker (dirOfSignal sig) now).1 = true) :
    handler deliver digest f now sig st
      = ⟨{ st with lastMarker := (shouldDebounce f st.lastMarker (dirOfSignal sig) now).2 },
          none, []⟩ := by
  rw [handler]
  simp [herr, hdeb]

theorem handler_armed (deliver : GeoEventPayload → Bool) (digest : String → String)
    (now : Int) (sig : Signal) (st : GeoState) (am : ActiveEventMeta)
    (herr : sig.error = none)
    (hm : st.meta = some am) (hne : jsTrim am.event_id ≠ "")
    (hend : am.active_event_end_utc.bind id = none)
    (hdeb : debounceHit st.lastMarker (dirOfSignal sig) now = false) :
    (handler deliver digest .healthy now sig st).record.isSome = true
    ∧ (handler deliver digest .healthy now sig st).state.lastMarker
        = some ⟨dirOfSignal sig, now⟩
    ∧ (handler deliver digest .healthy now sig st).state.meta = some am := by
  rw [handler]
  simp only [herr, Option.isSome_none, Bool.false_eq_true, if_false]
  have hsd : shouldDebounce .healthy st.lastMarker (dirOfSignal sig) now
      = (false, some ⟨dirOfSignal sig, now⟩) := by
    simp [shouldDebounce, hdeb]
  simp only [hsd, Bool.false_eq_true, if_false]
  have harm : getActiveEventId now { st with lastMarker := some ⟨dirOfSignal sig, now⟩ }
      = (some (jsTrim am.event_id),
          { st with lastMarker := some ⟨dirOfSignal sig, now⟩ }) :=
    getActiveEventId_armed now _ am hm hne hend
  simp only [harm]
  split <;> simp [hm]

theorem handler_no_context (deliver : GeoEventPayload → Bool) (digest : String → String)
    (now : Int) (sig : Signal) (st : GeoState)
    (herr : sig.error = none)
    (hmeta : st.meta = none) (hleg : st.legacy = none)
    (hdeb : debounceHit st.lastMarker (dirOfSignal sig) now = false)
    (hreg : parseRegionEvent (sig.region.bind Region.identifier) = none) :
    handler deliver digest .healthy now sig st
      = ⟨{ st with lastMarker := some ⟨dirOfSignal sig, now⟩ }, none, []⟩ := by
  rw [handler]
  simp only [herr, Option.isSome_none, Bool.false_eq_true, if_false]
  have hsd : shouldDebounce .healthy st.lastMarker (dirOfSignal sig) now
      = (false, some ⟨dirOfSignal sig, now⟩) := by
    simp [shouldDebounce, hdeb]
  simp only [hsd, Bool.false_eq_true, if_false]
  have hget : getActiveEventId now { st with lastMarker := some ⟨dirOfSignal sig, now⟩ }
      = (none, { st with lastMarker := some ⟨dirOfSignal sig, now⟩ }) := by
    rw [getActiveEventId]
    simp [getActiveEventMetaUnsafe, hmeta, hleg]
  simp [hget, hreg]

/-- C2: debounce correctness.  `shouldDebounce` returns `true` and leaves the
marker unchanged exactly when the stored marker has the same direction and
strictly less than 30 seconds have elapsed; with no marker, a different
direction, or 30 or more seconds elapsed it writes a fresh marker and returns
`false`.  Consequently two same-direction signals less than 30 s apart
produce exactly one `TransitionRecord` (the second produces none), while an
ENTER followed by an EXIT less than 30 s apart produces two. -/
theorem C2_debounce_correctness
    (last : Option Marker) (m : Marker) (d : Dir) (now : Int)
    (deliver : GeoEventPayload → Bool) (digest : String → String)
    (st : GeoState) (am : ActiveEventMeta) (t1 t2 : Int) (sig1 sig2 sig3 : Signal) :
    (last = some m → m.dir = d → now - m.atMs < 30 * 1000 →
        shouldDebounce .healthy last d now = (true, last))
    ∧ (last = none → shouldDebounce .healthy last d now = (false, some ⟨d, now⟩))
    ∧ (last = some m → m.dir ≠ d →
        shouldDebounce .healthy last d now = (false, some ⟨d, now⟩))
    ∧ (last = some m → 30 * 1000 ≤ now - m.atMs →
        shouldDebounce .healthy last d now = (false, some ⟨d, now⟩))
    ∧ (st.lastMarker = none → st.meta = some am → jsTrim am.event_id ≠ "" →
        am.active_event_end_utc.bind id = none →
        sig1.error = none → sig1.eventType = some .enter →
        sig2.error = none → sig2.eventType = some .enter →
        sig3.error = none → sig3.eventType = some .leave →
        t1 ≤ t2 → t2 - t1 < 30 * 1000 →
        (handler deliver digest .healthy t1 sig1 st).record.isSome = true
        ∧ (handler deliver digest .healthy t2 sig2
            (handler deliver digest .healthy t1 sig1 st).state).record = none
        ∧ (handler deliver digest .healthy t2 sig3
            (handler deliver digest .healthy t1 sig1 st).state).record.isSome = true) := by
  refine ⟨?_, ?_, ?_, ?_, ?_⟩
  · intro h1 h2 h3
    subst h1
    have hhit : debounceHit (some m) d now = true := by
      apply decide_eq_true
      refine ⟨h2, ?_⟩
      have hD : DEBOUNCE_SEC * 1000 = (30000 : Int) := rfl
      rw [hD]
      omega
    simp [shouldDebounce, hhit]
  · intro h1
    subst h1
    simp [shouldDebounce, debounceHit]
  · intro h1 h2
    subst h1
    have hhit : debounceHit (some m) d now = false := by
      apply decide_eq_false
      rintro ⟨hc, _⟩
      exact h2 hc
    simp [shouldDebounce, hhit]
  · intro h1 h2
    subst h1
    have hhit : debounceHit (some m) d now = false := by
      apply decide_eq_false
      rintro ⟨_, hc⟩
      have hD : DEBOUNCE_SEC * 1000 = (30000 : Int) := rfl
      rw [hD] at hc
      omega
    simp [shouldDebounce, hhit]
  · intro hmark hm hne hend herr1 het1 herr2 het2 herr3 het3 h12 hlt
    have hd1 : dirOfSignal sig1 = .ENTER := by simp [dirOfSignal, het1]
    have hdeb1 : debounceHit st.lastMarker (dirOfSignal sig1) t1 = false := by
      rw [hmark]; rfl
    obtain ⟨hrec1, hmark1, hmeta1⟩ :=
      handler_armed deliver digest t1 sig1 st am herr1 hm hne hend hdeb1
    rw [hd1] at hmark1
    refine ⟨hrec1, ?_, ?_⟩
    · have hd2 : dirOfSignal sig2 = .ENTER := by simp [dirOfSignal, het2]
      have hhit2 : debounceHit
          (handler deliver digest .healthy t1 sig1 st).state.lastMarker
          (dirOfSignal sig2) t2 = true := by
        rw [hmark1, hd2]
        apply decide_eq_true
        refine ⟨rfl, ?_⟩
        show t2 - t1 < DEBOUNCE_SEC * 1000
        have hD : DEBOUNCE_SEC * 1000 = (30000 : Int) := rfl
        rw [hD]
        omega
      have hsd2 : (shouldDebounce .healthy
          (handler deliver digest .healthy t1 sig1 st).state.lastMarker
          (dirOfSignal sig2) t2).1 = true := by
        simp [shouldDebounce, hhit2]
      rw [handler_debounced deliver digest .healthy t2 sig2 _ herr2 hsd2]
    · have hd3 : dirOfSignal sig3 = .EXIT := by simp [dirOfSignal, het3]
      have hdeb3 : debounceHit
          (handler deliver digest .healthy t1 sig1 st).state.lastMarker
          (dirOfSignal sig3) t2 = false := by
        rw [hmark1, hd3]
        rfl
      exact (handler_armed deliver digest t2 sig3 _ am herr3 hmeta1 hne hend hdeb3).1

/-- C2 witness: on the armed demo state, an ENTER at 0 ms produces a record,
a second ENTER at 5000 ms is suppressed, and an EXIT at 5000 ms produces a
second record. -/
theorem C2_debounce_correctness_witness :
    (handler (fun _ => false) (fun s => s) .healthy 0
        ⟨none, some .enter, none⟩ armedState).record.isSome = true
    ∧ (handler (fun _ => false) (fun s => s) .healthy 5000 ⟨none, some .enter, none⟩
        (handler (fun _ => false) (fun s => s) .healthy 0
          ⟨none, some .enter, none⟩ armedState).state).record = none
    ∧ (handler (fun _ => false) (fun s => s) .healthy 5000 ⟨none, some .leave, none⟩
        (handler (fun _ => false) (fun s => s) .healthy 0
          ⟨none, some .enter, none⟩ armedState).state).record.isSome = true :=
  (C2_debounce_correctness none ⟨.ENTER, 0⟩ .ENTER 0 (fun _ => false) (fun s => s)
      armedState ⟨"E1", none, 0⟩ 0 5000 ⟨none, some .enter, none⟩
      ⟨none, some .enter, none⟩ ⟨none, some .leave, none⟩).2.2.2.2
    rfl rfl (by decide) rfl rfl rfl rfl rfl rfl rfl (by decide) (by decide)

/-- C10: the handler consults and overwrites the debounce marker before
resolving the event id.  In general, any non-debounced, non-error invocation
leaves the marker at the invocation direction and time; in particular an
invocation dropped for lack of a resolvable event id still overwrites the
marker, so a same-direction signal within 30 seconds is suppressed even after
an event id has become resolvable in the meantime. -/
theorem C10_marker_before_resolution
    (deliver : GeoEventPayload → Bool) (digest : String → String)
    (now t1 t2 : Int) (sig sig1 sig2 : Signal) (st st0 : GeoState) (e : String) :
    (sig.error = none → debounceHit st.lastMarker (dirOfSignal sig) now = false →
        (handler deliver digest .healthy now sig st).state.lastMarker
          = some ⟨dirOfSignal sig, now⟩)
    ∧ (st0.meta = none → st0.legacy = none → st0.lastMarker = none →
        sig1.error = none → sig1.eventType = some .enter →
        parseRegionEvent (sig1.region.bind Region.identifier) = none →
        sig2.error = none → sig2.eventType = some .enter →
        jsTrim e ≠ "" → t1 ≤ t2 → t2 - t1 < 30 * 1000 →
        (handler deliver digest .healthy t1 sig1 st0).record = none
        ∧ (handler deliver digest .healthy t2 sig2
            (setActiveEventMeta t1 (some ⟨e, none⟩)
              (handler deliver digest .healthy t1 sig1 st0).state)).record = none) := by
  constructor
  · intro herr hdeb
    rw [handler]
    simp only [herr, Option.isSome_none, Bool.false_eq_true, if_false]
    have hsd : shouldDebounce .healthy st.lastMarker (dirOfSignal sig) now
        = (false, some ⟨dirOfSignal sig, now⟩) := by
      simp [shouldDebounce, hdeb]
    simp only [hsd, Bool.false_eq_true, if_false]
    have hml := (getActiveEventId_snd_frame now
      { st with lastMarker := some ⟨dirOfSignal sig, now⟩ }).2
    rcases hres : (getActiveEventId now
        { st with lastMarker := some ⟨dirOfSignal sig, now⟩ }).1 with _ | ev <;>
      simp only [hres]
    · rcases hpr : parseRegionEvent (sig.region.bind Region.identifier) with _ | ev2 <;>
        simp only [hpr]
      · simpa using hml
      · split <;> simpa using hml
    · split <;> simpa using hml
  · intro hmeta hleg hmark herr1 het1 hreg herr2 het2 hne h12 hlt
    have hd1 : dirOfSignal sig1 = .ENTER := by simp [dirOfSignal, het1]
    have hdeb1 : debounceHit st0.lastMarker (dirOfSignal sig1) t1 = false := by
      rw [hmark]; rfl
    have h1 := handler_no_context deliver digest t1 sig1 st0
      herr1 hmeta hleg hdeb1 hreg
    rw [h1]
    refine ⟨rfl, ?_⟩
    have hd2 : dirOfSignal sig2 = .ENTER := by simp [dirOfSignal, het2]
    have hset : (setActiveEventMeta t1 (some ⟨e, none⟩)
        ({ st0 with lastMarker := some ⟨dirOfSignal sig1, t1⟩ } : GeoState)).lastMarker
        = some ⟨.ENTER, t1⟩ := by
      rw [setActiveEventMeta]
      simp [hne, hd1]
    have hhit2 : debounceHit (setActiveEventMeta t1 (some ⟨e, none⟩)
        ({ st0 with lastMarker := some ⟨dirOfSignal sig1, t1⟩ } : GeoState)).lastMarker
        (dirOfSignal sig2) t2 = true := by
      rw [hset, hd2]
      apply decide_eq_true
      refine ⟨rfl, ?_⟩
      show t2 - t1 < DEBOUNCE_SEC * 1000
      have hD : DEBOUNCE_SEC * 1000 = (30000 : Int) := rfl
      rw [hD]
      omega
    have hsd2 : (shouldDebounce .healthy (setActiveEventMeta t1 (some ⟨e, none⟩)
        ({ st0 with lastMarker := some ⟨dirOfSignal sig1, t1⟩ } : GeoState)).lastMarker
        (dirOfSignal sig2) t2).1 = true := by
      simp [shouldDebounce, hhit2]
    rw [handler_debounced deliver digest .healthy t2 sig2 _ herr2 hsd2]

/-- C10 witness: on the empty state, an ENTER at 0 ms with no resolvable
event produces no record; after arming event `E1`, a second ENTER at 5000 ms
is still suppressed by the marker the first invocation wrote. -/
theorem C10_marker_before_resolution_witness :
    (handler (fun _ => false) (fun s => s) .healthy 0
        ⟨none, some .enter, none⟩ emptyState).record = none
    ∧ (handler (fun _ => false) (fun s => s) .healthy 5000 ⟨none, some .enter, none⟩
        (setActiveEventMeta 0 (some ⟨"E1", none⟩)
          (handler (fun _ => false) (fun s => s) .healthy 0
            ⟨none, some .enter, none⟩ emptyState).state)).record = none :=
  (C10_marker_before_resolution (fun _ => false) (fun s => s) 0 0 5000
      ⟨none, some .enter, none⟩ ⟨none, some .enter, none⟩ ⟨none, some .enter, none⟩
      emptyState emptyState "E1").2
    rfl rfl rfl rfl rfl rfl rfl rfl (by decide) (by decide) (by decide)


/-! Decimal-printing injectivity, needed for the slot component of the idem
key. -/

theorem digitChar_toNat (n : Nat) (h : n < 10) : (Nat.digitChar n).toNat = 48 + n := by
  interval_cases n <;> rfl

theorem natChars_ne_nil (n : Nat) : natChars n ≠ [] := by
  rw [natChars]
  split <;> simp

theorem toDigitsCore_eq_natChars :
    ∀ (fuel n : Nat) (ds : List Char), 0 < fuel → n < 10 ^ fuel →
      Nat.toDigitsCore 10 fuel n ds = natChars n ++ ds := by
  intro fuel
  induction fuel with
  | zero => intro n ds h; omega
  | succ f ih =>
    intro n ds _ hlt
    rw [Nat.toDigitsCore]
    by_cases h0 : n / 10 = 0
    · have hn : n < 10 := by omega
      rw [natChars]
      simp [h0, hn, Nat.mod_eq_of_lt hn]
    · have hf : 0 < f := by
        rcases Nat.eq_zero_or_pos f with hz | hp
        · subst hz
          simp at hlt
          omega
        · exact hp
      have hdiv : n / 10 < 10 ^ f := by
        apply Nat.div_lt_of_lt_mul
        have hpow : (10 : Nat) ^ (f + 1) = 10 * 10 ^ f := by ring
        rw [← hpow]
        exact hlt
      rw [if_neg h0, ih (n / 10) (Nat.digitChar (n % 10) :: ds) hf hdiv]
      conv_rhs => rw [natChars]
      have hge : ¬ n < 10 := by omega
      simp [hge]

theorem nat_repr_data (n : Nat) : (Nat.repr n).data = natChars n := by
  have hpow : n < 10 ^ (n + 1) :=
    (Nat.lt_pow_self (by norm_num) n).trans (Nat.pow_lt_pow_succ (by norm_num))
  show ((Nat.toDigits 10 n).asString).data = natChars n
  rw [Nat.toDigits, toDigitsCore_eq_natChars (n + 1) n [] (by omega) hpow]
  simp [List.asString]

theorem decode_natChars (n : Nat) :
    ∀ a : Nat, decodeDigits a (natChars n) = a * 10 ^ (natChars n).length + n := by
  induction n using Nat.strong_induction_on with
  | _ n ih =>
    intro a
    rw [natChars]
    by_cases h : n < 10
    · simp only [h, if_true]
      simp [decodeDigits, digitChar_toNat n h]
    · simp only [h, if_false]
      have hlt : n / 10 < n := Nat.div_lt_self (by omega) (by omega)
      have hmod : n % 10 < 10 := Nat.mod_lt _ (by norm_num)
      simp only [decodeDigits, List.foldl_append, List.foldl_cons, List.foldl_nil]
      have hih := ih (n / 10) hlt a
      rw [decodeDigits] at hih
      rw [hih, digitChar_toNat _ hmod]
      have hsub : 48 + n % 10 - 48 = n % 10 := by omega
      rw [hsub]
      have hqr : n / 10 * 10 + n % 10 = n := by omega
      have hlen : (natChars (n / 10) ++ [Nat.digitChar (n % 10)]).length
          = (natChars (n / 10)).length + 1 := by simp
      rw [hlen, pow_succ]
      calc (a * 10 ^ (natChars (n / 10)).length + n / 10) * 10 + n % 10
          = a * (10 ^ (natChars (n / 10)).length * 10) + (n / 10 * 10 + n % 10) := by ring
        _ = a * (10 ^ (natChars (n / 10)).length * 10) + n := by rw [hqr]

theorem nat_repr_inj {m n : Nat} (h : Nat.repr m = Nat.repr n) : m = n := by
  have hd : natChars m = natChars n := by
    rw [← nat_repr_data, ← nat_repr_data, h]
  have h1 := decode_natChars m 0
  have h2 := decode_natChars n 0
  rw [hd] at h1
  simp only [Nat.zero_mul, Nat.zero_add] at h1 h2
  rw [h1] at h2
  exact h2

theorem natChars_digits (n : Nat) :
    ∀ c ∈ natChars n, 48 ≤ c.toNat ∧ c.toNat ≤ 57 := by
  induction n using Nat.strong_induction_on with
  | _ n ih =>
    intro c hc
    rw [natChars] at hc
    by_cases h : n < 10
    · simp only [h, if_true, List.mem_singleton] at hc
      subst hc
      rw [digitChar_toNat n h]
      omega
    · simp only [h, if_false, List.mem_append, List.mem_singleton] at hc
      rcases hc with hc | hc
      · exact ih (n / 10) (Nat.div_lt_self (by omega) (by omega)) c hc
      · subst hc
        have hmod : n % 10 < 10 := Nat.mod_lt _ (by norm_num)
        rw [digitChar_toNat _ hmod]
        omega

theorem int_repr_inj {a b : Int} (h : Int.repr a = Int.repr b) : a = b := by
  have hneg : ∀ (m k : Nat), Nat.repr m ≠ "-" ++ Nat.repr (k + 1) := by
    intro m k hc
    have hd := congrArg String.data hc
    rw [nat_repr_data, String.data_append] at hd
    rcases hh : natChars m with _ | ⟨c, cs⟩
    · exact natChars_ne_nil m hh
    · rw [hh] at hd
      have hc2 : c = '-' := by
        have : ("-" : String).data = ['-'] := rfl
        rw [this] at hd
        exact (List.cons.injEq _ _ _ _ ▸ hd).1
      have hdig := natChars_digits m c (hh ▸ List.mem_cons_self c cs)
      rw [hc2] at hdig
      have : ('-').toNat = 45 := rfl
      omega
  cases a with
  | ofNat m =>
    cases b with
    | ofNat n =>
      have h2 : Nat.repr m = Nat.repr n := h
      exact congrArg Int.ofNat (nat_repr_inj h2)
    | negSucc n =>
      exact absurd (h : Nat.repr m = "-" ++ Nat.repr (n + 1)) (hneg m n)
  | negSucc m =>
    cases b with
    | ofNat n =>
      exact absurd ((h : "-" ++ Nat.repr (m + 1) = Nat.repr n).symm) (hneg n m)
    | negSucc n =>
      have h2 : "-" ++ Nat.repr (m + 1) = "-" ++ Nat.repr (n + 1) := h
      have hd := congrArg String.data h2
      rw [String.data_append, String.data_append] at hd
      have hm : ("-" : String).data = ['-'] := rfl
      rw [hm] at hd
      have htail : (Nat.repr (m + 1)).data = (Nat.repr (n + 1)).data :=
        (List.cons.injEq _ _ _ _ ▸ hd).2
      have hmn : m = n := by
        have := nat_repr_inj (String.ext htail)
        omega
      exact congrArg Int.negSucc hmn

theorem append_sep_inj (sep : Char) :
    ∀ (l1 l2 r1 r2 : List Char), sep ∉ l1 → sep ∉ l2 →
      l1 ++ sep :: r1 = l2 ++ sep :: r2 → l1 = l2 ∧ r1 = r2 := by
  intro l1
  induction l1 with
  | nil =>
    intro l2 r1 r2 h1 h2 h
    cases l2 with
    | nil => simpa using h
    | cons c t =>
      exfalso
      simp only [List.nil_append, List.cons_append, List.cons.injEq] at h
      exact h2 (by rw [h.1]; exact List.mem_cons_self _ _)
  | cons c t ih =>
    intro l2 r1 r2 h1 h2 h
    cases l2 with
    | nil =>
      exfalso
      simp only [List.nil_append, List.cons_append, List.cons.injEq] at h
      exact h1 (by rw [← h.1]; exact List.mem_cons_self _ _)
    | cons c2 t2 =>
      simp only [List.cons_append, List.cons.injEq] at h
      obtain ⟨hc, ht⟩ := h
      have h1t : sep ∉ t := fun hx => h1 (List.mem_cons_of_mem _ hx)
      have h2t : sep ∉ t2 := fun hx => h2 (List.mem_cons_of_mem _ hx)
      obtain ⟨hl, hr⟩ := ih t2 r1 r2 h1t h2t ht
      exact ⟨by rw [hc, hl], hr⟩

theorem idemBase_data (e : String) (r : Option String) (d : Dir) (t : Int) :
    (idemBase e r d t).data
      = e.data ++ '|' :: ((r.getD "null").data ++ '|' :: ((dirStr d).data ++ '|' ::
          (Int.repr (Int.fdiv t (1000 * DEBOUNCE_SEC))).data)) := by
  have hbar : ("|" : String).data = ['|'] := rfl
  simp [idemBase, String.data_append, hbar, Int.repr]

theorem bar_not_mem_regionStr {r : Option String}
    (hr : ∀ s, r = some s → '|' ∉ s.data) : '|' ∉ (r.getD "null").data := by
  cases r with
  | none => decide
  | some s => exact hr s rfl

theorem bar_not_mem_dirStr (d : Dir) : '|' ∉ (dirStr d).data := by
  cases d <;> decide

theorem regionStr_inj {r1 r2 : Option String} (h1 : r1 ≠ some "null")
    (h2 : r2 ≠ some "null") (h : r1.getD "null" = r2.getD "null") : r1 = r2 := by
  cases r1 <;> cases r2 <;>
    simp only [Option.getD_some, Option.getD_none] at h <;> simp_all

theorem dirStr_inj {d1 d2 : Dir} (h : dirStr d1 = dirStr d2) : d1 = d2 := by
  cases d1 <;> cases d2 <;> first | rfl | (exact absurd h (by decide))


/-- C4 counterexample: two calls that differ in both `eventId` and `regionId`
can produce the same key even under an injective digest, because the `"|"`
delimiter is not escaped: `("a", some "b|null")` and `("a|b", none)` share the
base string `a|b|null|ENTER|0`.  This refutes the claim that calls differing
in any argument always yield different keys. -/
theorem C4_counterexample :
    makeIdem (fun s => s) "a" (some "b|null") .ENTER 0
      = makeIdem (fun s => s) "a|b" none .ENTER 0
    ∧ ("a" : String) ≠ "a|b"
    ∧ Function.Injective (fun s : String => s) :=
  ⟨rfl, by decide, fun a b h => h⟩

/-- C4 (amended): the key is a deterministic function of
(eventId, regionId, direction, floor(ms/30000)): equal arguments whose
timestamps fall in the same 30-second slot always yield the same key; and
under a collision-free (injective) digest, provided neither `eventId` nor
`regionId` contains the `"|"` delimiter and `regionId` is not the literal
string `"null"`, calls whose floored slots differ, or that differ in any
other argument, yield different keys. -/
theorem C4_idem_key :
    (∀ (digest : String → String) (e : String) (r : Option String) (d : Dir) (t1 t2 : Int),
        Int.fdiv t1 (1000 * DEBOUNCE_SEC) = Int.fdiv t2 (1000 * DEBOUNCE_SEC) →
        makeIdem digest e r d t1 = makeIdem digest e r d t2)
    ∧ (∀ digest : String → String, Function.Injective digest →
        ∀ (e1 e2 : String) (r1 r2 : Option String) (d1 d2 : Dir) (t1 t2 : Int),
        ('|' ∉ e1.data) → ('|' ∉ e2.data) →
        (∀ s, r1 = some s → '|' ∉ s.data) → (∀ s, r2 = some s → '|' ∉ s.data) →
        r1 ≠ some "null" → r2 ≠ some "null" →
        makeIdem digest e1 r1 d1 t1 = makeIdem digest e2 r2 d2 t2 →
        e1 = e2 ∧ r1 = r2 ∧ d1 = d2
          ∧ Int.fdiv t1 (1000 * DEBOUNCE_SEC) = Int.fdiv t2 (1000 * DEBOUNCE_SEC)) := by
  constructor
  · intro digest e r d t1 t2 hslot
    rw [makeIdem, makeIdem, idemBase, idemBase, hslot]
  · intro digest hinj e1 e2 r1 r2 d1 d2 t1 t2 he1 he2 hr1 hr2 hn1 hn2 hkey
    have hbase : idemBase e1 r1 d1 t1 = idemBase e2 r2 d2 t2 := hinj hkey
    have hdata := congrArg String.data hbase
    rw [idemBase_data, idemBase_data] at hdata
    obtain ⟨heq, hrest⟩ := append_sep_inj '|' _ _ _ _ he1 he2 hdata
    obtain ⟨hreq, hrest2⟩ := append_sep_inj '|' _ _ _ _
      (bar_not_mem_regionStr hr1) (bar_not_mem_regionStr hr2) hrest
    obtain ⟨hdeq, hrest3⟩ := append_sep_inj '|' _ _ _ _
      (bar_not_mem_dirStr d1) (bar_not_mem_dirStr d2) hrest2
    refine ⟨String.ext heq, ?_, ?_, ?_⟩
    · exact regionStr_inj hn1 hn2 (String.ext hreq)
    · exact dirStr_inj (String.ext hdeq)
    · exact int_repr_inj (String.ext hrest3)

/-- C4 witness: determinism inside one slot (5 ms and 7 ms share slot 0), and
the separation direction applied to two in-slot calls, concluding slot
equality of 0 and 29999. -/
theorem C4_idem_key_witness :
    makeIdem (fun s => s) "e" none .ENTER 5 = makeIdem (fun s => s) "e" none .ENTER 7
    ∧ (("a" : String) = "a" ∧ (none : Option String) = none ∧ Dir.ENTER = Dir.ENTER
        ∧ Int.fdiv 0 (1000 * DEBOUNCE_SEC) = Int.fdiv 29999 (1000 * DEBOUNCE_SEC)) :=
  ⟨C4_idem_key.1 (fun s => s) "e" none .ENTER 5 7 (by decide),
    C4_idem_key.2 (fun s => s) (fun a b h => h) "a" "a" none none .ENTER .ENTER 0 29999
      (by decide) (by decide) (fun s hs => nomatch hs) (fun s hs => nomatch hs)
      (by decide) (by decide) rfl⟩

end GeoAttend
